import Mathlib

/-
Verification of the table-validation and text-cleaning core of
kindle2keynote (src/kindle2keynote/pdf_extractor.py).

Python strings are shallowly embedded as `List Char`; Python `None`-able
table cells as `Option (List Char)` (with `some []` the empty string, which
is falsy in Python just like `None`); Python's unbounded `int` as `Int`
where negatives can occur and `Nat` for counts; Python `float` ratios as
`ℚ` (all ratios involved are exact rationals of machine-small numerators).
The ASCII fragment of Python's regex classes is modelled: the inputs the
source ever feeds these functions are `str` extracts, and every claim is
settled on ASCII data.
-/

namespace PdfExtractor

/-- Python strings, as lists of characters. -/
abbrev PyStr := List Char

/-- A table cell as pdfplumber delivers it: absent (`None`) or a string. -/
abbrev Cell := Option PyStr

/-- A table row: an ordered sequence of optional cells. -/
abbrev Row := List Cell

/-- A raw table grid: an ordered sequence of rows. -/
abbrev Table := List Row

/-- The ASCII characters matched by Python's regex class `\s`
(and stripped by `str.strip()`). -/
def isPySpace (c : Char) : Bool :=
  c = ' ' || c = '\t' || c = '\n' || c = '\r' || c = Char.ofNat 11 || c = Char.ofNat 12

/-- ASCII decimal digits, the relevant fragment of Python's `\d`. -/
def isPyDigit (c : Char) : Bool :=
  '0' ≤ c && c ≤ '9'

/-- Python's `str.strip()`: drop leading and trailing whitespace. -/
def pyStrip (s : PyStr) : PyStr :=
  (((s.dropWhile isPySpace).reverse).dropWhile isPySpace).reverse

/-- One left-to-right pass of `re.sub(r'\s+', ' ', text)`: each maximal run
of whitespace becomes a single space.  The flag records whether the previous
character belonged to a whitespace run already replaced. -/
def collapseWS : Bool → PyStr → PyStr
  | _, [] => []
  | prevWS, c :: rest =>
    if isPySpace c then
      if prevWS then collapseWS true rest else ' ' :: collapseWS true rest
    else
      c :: collapseWS false rest

/-- `PDFExtractor._normalize_whitespace`: collapse whitespace runs to single
spaces, then strip; empty input short-circuits to the empty string. -/
def normalize_whitespace (text : PyStr) : PyStr :=
  if text.isEmpty then [] else pyStrip (collapseWS false text)

/-- `PDFExtractor._get_page_indices`: convert a 1-indexed inclusive page
range (or `none`) into 0-indexed half-open iteration bounds.  A tuple is
always truthy in Python, so only `None` takes the default branch. -/
def get_page_indices (total_pages : Int) (page_range : Option (Int × Int)) :
    Int × Int :=
  match page_range with
  | some (start_page, end_page) => (max 0 (start_page - 1), min total_pages end_page)
  | none => (0, total_pages)

example : get_page_indices 50 none = (0, 50) := by decide
example : get_page_indices 50 (some (66, 100)) = (65, 50) := by decide
example : get_page_indices 200 (some (66, 100)) = (65, 100) := by decide
example : get_page_indices 50 (some (1, 99999)) = (0, 50) := by decide

example : normalize_whitespace ("  foo \t\n bar  ".toList) = ("foo bar".toList) := by decide

/-- Match the regex `\(cid:\d+\)` at the head of the string; on success
return the remainder after the match (greedy `\d+` is forced: digits and
`)` are disjoint). -/
def matchCid (s : PyStr) : Option PyStr :=
  if s.take 5 = ['(', 'c', 'i', 'd', ':'] then
    let afterTag := s.drop 5
    if (afterTag.takeWhile isPyDigit).isEmpty then none
    else
      match afterTag.dropWhile isPyDigit with
      | ')' :: rest => some rest
      | _ => none
  else none

/-- The scan of `re.sub(r'\(cid:\d+\)', '', text)`: at each position try the
pattern; on a match emit nothing and resume after it, otherwise keep the
character.  The fuel (always instantiated to the string length, which each
step strictly decreases) makes the recursion structural. -/
def subCidF : Nat → PyStr → PyStr
  | _, [] => []
  | 0, s => s
  | fuel + 1, c :: rest =>
    match matchCid (c :: rest) with
    | some rest2 => subCidF fuel rest2
    | none => c :: subCidF fuel rest

/-- `re.sub(r'\(cid:\d+\)', '', text)`. -/
def subCid (s : PyStr) : PyStr := subCidF s.length s

/-- `PDFExtractor._remove_cid_codes`: delete `(cid:NNNN)` artifacts, then
normalize whitespace; empty input short-circuits. -/
def remove_cid_codes (text : PyStr) : PyStr :=
  if text.isEmpty then [] else normalize_whitespace (subCid text)

/-- The character class `[TI]`. -/
def isTI (c : Char) : Bool := c = 'T' || c = 'I'

/-- Match one `PPAARRT[TI]+` unit at the head; return the remainder.
Greedy `[TI]+` is forced maximal: a following `\s` cannot be `T` or `I`. -/
def matchPartUnit (s : PyStr) : Option PyStr :=
  if s.take 7 = ['P', 'P', 'A', 'A', 'R', 'R', 'T'] then
    let afterLit := s.drop 7
    if (afterLit.takeWhile isTI).isEmpty then none
    else some (afterLit.dropWhile isTI)
  else none

/-- The starred group `(?:\s+PPAARRT[TI]+)*`: repeat as long as a
whitespace run followed by another unit is present; `\s+` is forced maximal
because the unit starts with `P`.  Returns the remainder. -/
def matchPartStarF : Nat → PyStr → PyStr
  | 0, s => s
  | fuel + 1, s =>
    if (s.takeWhile isPySpace).isEmpty then s
    else
      match matchPartUnit (s.dropWhile isPySpace) with
      | some rest => matchPartStarF fuel rest
      | none => s

/-- Match `PPAARRT[TI]+(?:\s+PPAARRT[TI]+)*` at the head of the string;
return the remainder after the match. -/
def matchPart (s : PyStr) : Option PyStr :=
  match matchPartUnit s with
  | some rest => some (matchPartStarF rest.length rest)
  | none => none

/-- The scan of `re.sub(r'PPAARRT[TI]+(?:\s+PPAARRT[TI]+)*', '', text)`. -/
def subPartF : Nat → PyStr → PyStr
  | _, [] => []
  | 0, s => s
  | fuel + 1, c :: rest =>
    match matchPart (c :: rest) with
    | some rest2 => subPartF fuel rest2
    | none => c :: subPartF fuel rest

/-- `re.sub(r'PPAARRT[TI]+(?:\s+PPAARRT[TI]+)*', '', text)`. -/
def subPart (s : PyStr) : PyStr := subPartF s.length s

/-- Python's regex class `\w` on ASCII, used for the `\b` assertion. -/
def isWordChar (c : Char) : Bool := c.isAlpha || isPyDigit c || c = '_'

/-- Length of the run of `I` characters at the head of the string. -/
def runI (s : PyStr) : Nat := (s.takeWhile (· = 'I')).length

/-- Candidate match lengths, in backtracking preference order, of the
alternation `(?:I{1,3}|IV|V|VI{1,3}|IX|X)` at the head of the string:
alternatives are tried left to right and each bounded repetition greedily
from its largest count. -/
def romanCandidates (s : PyStr) : List Nat :=
  let r := runI s
  (if r ≥ 3 then [3, 2, 1] else if r = 2 then [2, 1] else if r = 1 then [1] else []) ++
  (if s.take 2 = ['I', 'V'] then [2] else []) ++
  (if s.take 1 = ['V'] then
    let rv := runI (s.drop 1)
    [1] ++ (if rv ≥ 3 then [4, 3, 2] else if rv = 2 then [3, 2] else if rv = 1 then [2] else [])
  else []) ++
  (if s.take 2 = ['I', 'X'] then [2] else []) ++
  (if s.take 1 = ['X'] then [1] else [])

/-- First value of `f` on `l` that is `some`, in order — the backtracking
search over candidate lengths. -/
def findFirst (f : Nat → Option Nat) : List Nat → Option Nat
  | [] => none
  | a :: as => match f a with
    | some b => some b
    | none => findFirst f as

/-- Match `(?:I{1,3}|IV|V|VI{1,3}|IX|X)\s+(?:…)\s+(?:…)` at the head
(the `\b` is checked by the caller); returns the total matched length.
Each `\s+` is forced maximal since every alternative starts with a
non-whitespace character; for the final token the first successful
alternative wins, as nothing follows it in the pattern. -/
def matchRomanAt (s : PyStr) : Option Nat :=
  findFirst (fun l1 =>
    let s1 := s.drop l1
    let w1 := (s1.takeWhile isPySpace).length
    if w1 = 0 then none
    else
      let s2 := s1.drop w1
      findFirst (fun l2 =>
        let s3 := s2.drop l2
        let w2 := (s3.takeWhile isPySpace).length
        if w2 = 0 then none
        else
          match romanCandidates (s3.drop w2) with
          | [] => none
          | l3 :: _ => some (l1 + w1 + l2 + w2 + l3)) (romanCandidates s2))
    (romanCandidates s)

/-- The scan of the roman-numeral substitution: a match may only start at a
`\b` whose right side is a word character (every alternative starts with
`I`, `V` or `X`), i.e. where the previous character is absent or a
non-word character.  After a match the scan resumes behind it; the last
matched character is always a word character. -/
def subRomanF : Nat → Bool → PyStr → PyStr
  | _, _, [] => []
  | 0, _, s => s
  | fuel + 1, prevWord, c :: rest =>
    if prevWord then c :: subRomanF fuel (isWordChar c) rest
    else
      match matchRomanAt (c :: rest) with
      | some n => subRomanF fuel true ((c :: rest).drop n)
      | none => c :: subRomanF fuel (isWordChar c) rest

/-- `re.sub` of the pattern
`\b(?:I{1,3}|IV|V|VI{1,3}|IX|X)\s+(?:…)\s+(?:…)` with the empty string. -/
def subRoman (s : PyStr) : PyStr := subRomanF s.length false s

/-- `PDFExtractor._remove_page_headers`: delete doubled `PART` header runs,
then stray roman-numeral triples, then normalize whitespace; empty input
short-circuits. -/
def remove_page_headers (text : PyStr) : PyStr :=
  if text.isEmpty then [] else normalize_whitespace (subRoman (subPart text))

/-- `PDFExtractor._clean_text`: CID removal, then header removal. -/
def clean_text (text : PyStr) : PyStr :=
  remove_page_headers (remove_cid_codes text)

example : clean_text ("foo (cid:12) bar".toList) = ("foo bar".toList) := by decide
example : subPart ("x PPAARRTTII PPAARRTTIIII y".toList) = ("x  y".toList) := by decide
example : subRoman ("a II III IV b".toList) = ("a V b".toList) := by decide
example : subRoman ("a II III X b".toList) = ("a  b".toList) := by decide
example : clean_text ("(ci(cid:5)d:3)".toList) = ("(cid:3)".toList) := by decide
example : clean_text ("(cid:3)".toList) = [] := by decide
example : subRoman ("a VIII IX X b".toList) = ("a  b".toList) := by decide
example : subRoman ("fooIV V X bar".toList) = ("fooIV V X bar".toList) := by decide
example : subRoman ("foo IV V Xbar".toList) = ("foo bar".toList) := by decide
example : subRoman ("9IV V X".toList) = ("9IV V X".toList) := by decide
example : subRoman ("V V I I I V V".toList) = ("  V".toList) := by decide
example : subPart ("PPAAPPAARRTTRRTT".toList) = ("PPAARRTT".toList) := by decide

/-
Whitespace-normalization facts.  `normalize_whitespace` is idempotent: its
output contains only single literal spaces as whitespace, none of them
leading, trailing or adjacent, and such strings are fixed points of both
passes of the function.
-/

theorem head?_dropWhile_false {α : Type} {p : α → Bool} :
    ∀ {l : List α} {c : α}, (l.dropWhile p).head? = some c → p c = false := by
  intro l
  induction l with
  | nil => intro c h; simp [List.dropWhile] at h
  | cons a l ih =>
    intro c h
    by_cases hpa : p a
    · rw [List.dropWhile_cons_of_pos hpa] at h
      exact ih h
    · rw [List.dropWhile_cons_of_neg hpa] at h
      simp at h
      rw [← h]
      exact Bool.of_not_eq_true hpa

theorem dropWhile_eq_self_of_head {α : Type} {p : α → Bool} {l : List α}
    (h : ∀ c, l.head? = some c → p c = false) : l.dropWhile p = l := by
  cases l with
  | nil => rfl
  | cons a l =>
    have ha : p a = false := h a rfl
    simp [List.dropWhile, ha]

theorem getLast?_dropWhile {α : Type} {p : α → Bool} :
    ∀ {l : List α}, l.dropWhile p ≠ [] → (l.dropWhile p).getLast? = l.getLast? := by
  intro l
  induction l with
  | nil => intro h; simp [List.dropWhile] at h
  | cons a l ih =>
    intro h
    by_cases hpa : p a
    · rw [List.dropWhile_cons_of_pos hpa] at h ⊢
      have hl : l ≠ [] := by
        intro he
        subst he
        simp [List.dropWhile] at h
      rw [ih h]
      cases l with
      | nil => exact absurd rfl hl
      | cons b l2 => rw [List.getLast?_cons_cons]
    · rw [List.dropWhile_cons_of_neg hpa]

theorem pyStrip_head {l : PyStr} {c : Char} (h : (pyStrip l).head? = some c) :
    isPySpace c = false := by
  unfold pyStrip at h
  rw [List.head?_reverse] at h
  by_cases hB : ((l.dropWhile isPySpace).reverse).dropWhile isPySpace = []
  · rw [hB] at h; simp at h
  · rw [getLast?_dropWhile hB, List.getLast?_reverse] at h
    exact head?_dropWhile_false h

theorem pyStrip_getLast {l : PyStr} {c : Char} (h : (pyStrip l).getLast? = some c) :
    isPySpace c = false := by
  unfold pyStrip at h
  rw [List.getLast?_reverse] at h
  exact head?_dropWhile_false h

theorem pyStrip_eq_self {l : PyStr}
    (hh : ∀ c, l.head? = some c → isPySpace c = false)
    (hl : ∀ c, l.getLast? = some c → isPySpace c = false) : pyStrip l = l := by
  unfold pyStrip
  rw [dropWhile_eq_self_of_head hh]
  have : ∀ c, l.reverse.head? = some c → isPySpace c = false := by
    intro c hc
    rw [List.head?_reverse] at hc
    exact hl c hc
  rw [dropWhile_eq_self_of_head this, List.reverse_reverse]

theorem pyStrip_idem (l : PyStr) : pyStrip (pyStrip l) = pyStrip l :=
  pyStrip_eq_self (fun _ h => pyStrip_head h) (fun _ h => pyStrip_getLast h)

theorem mem_pyStrip {l : PyStr} {c : Char} (h : c ∈ pyStrip l) : c ∈ l := by
  unfold pyStrip at h
  rw [List.mem_reverse] at h
  have h2 := (List.dropWhile_sublist isPySpace).mem h
  rw [List.mem_reverse] at h2
  exact (List.dropWhile_sublist isPySpace).mem h2

/-- No two adjacent whitespace characters. -/
def noAdjWS (a b : Char) : Prop := isPySpace a = false ∨ isPySpace b = false

theorem chain'_pyStrip {l : PyStr} (h : l.Chain' noAdjWS) :
    (pyStrip l).Chain' noAdjWS := by
  have suffix_chain : ∀ {m : PyStr}, m.Chain' noAdjWS →
      (m.dropWhile isPySpace).Chain' noAdjWS := by
    intro m hm
    obtain ⟨t, ht⟩ := List.dropWhile_suffix (l := m) isPySpace
    rw [← ht] at hm
    exact (List.chain'_append.mp hm).2.1
  have rev_chain : ∀ {m : PyStr}, m.Chain' noAdjWS → m.reverse.Chain' noAdjWS := by
    intro m hm
    rw [List.chain'_reverse]
    exact hm.imp (fun a b hab => hab.symm)
  exact rev_chain (suffix_chain (rev_chain (suffix_chain h)))

theorem collapseWS_true_head :
    ∀ {s : PyStr} {c : Char}, (collapseWS true s).head? = some c → isPySpace c = false := by
  intro s
  induction s with
  | nil => intro c h; simp [collapseWS] at h
  | cons a s ih =>
    intro c h
    by_cases ha : isPySpace a
    · rw [show collapseWS true (a :: s) = collapseWS true s by simp [collapseWS, ha]] at h
      exact ih h
    · rw [show collapseWS true (a :: s) = a :: collapseWS false s by
        simp [collapseWS, ha]] at h
      simp at h
      rw [← h]
      exact Bool.of_not_eq_true ha

theorem collapseWS_mem_space :
    ∀ {s : PyStr} {b : Bool} {c : Char},
      c ∈ collapseWS b s → isPySpace c = true → c = ' ' := by
  intro s
  induction s with
  | nil => intro b c h; simp [collapseWS] at h
  | cons a s ih =>
    intro b c h hc
    by_cases ha : isPySpace a
    · cases b with
      | true =>
        rw [show collapseWS true (a :: s) = collapseWS true s by simp [collapseWS, ha]] at h
        exact ih h hc
      | false =>
        rw [show collapseWS false (a :: s) = ' ' :: collapseWS true s by
          simp [collapseWS, ha]] at h
        rcases List.mem_cons.mp h with h1 | h2
        · exact h1
        · exact ih h2 hc
    · rw [show collapseWS b (a :: s) = a :: collapseWS false s by
        simp [collapseWS, ha]] at h
      rcases List.mem_cons.mp h with h1 | h2
      · subst h1; exact absurd hc (by simpa using ha)
      · exact ih h2 hc

theorem collapseWS_chain :
    ∀ (s : PyStr) (b : Bool), (collapseWS b s).Chain' noAdjWS := by
  intro s
  induction s with
  | nil => intro b; simp [collapseWS]
  | cons a s ih =>
    intro b
    by_cases ha : isPySpace a
    · cases b with
      | true =>
        rw [show collapseWS true (a :: s) = collapseWS true s by simp [collapseWS, ha]]
        exact ih true
      | false =>
        rw [show collapseWS false (a :: s) = ' ' :: collapseWS true s by
          simp [collapseWS, ha]]
        refine List.chain'_cons'.mpr ⟨?_, ih true⟩
        intro y hy
        exact Or.inr (collapseWS_true_head hy)
    · rw [show collapseWS b (a :: s) = a :: collapseWS false s by simp [collapseWS, ha]]
      refine List.chain'_cons'.mpr ⟨?_, ih false⟩
      intro y _
      exact Or.inl (Bool.of_not_eq_true ha)

theorem collapseWS_fix :
    ∀ {u : PyStr}, (∀ c ∈ u, isPySpace c = true → c = ' ') →
      u.Chain' noAdjWS → collapseWS false u = u := by
  intro u
  induction u with
  | nil => intro _ _; rfl
  | cons a u ih =>
    intro hsp hch
    by_cases ha : isPySpace a
    · have ha' : a = ' ' := hsp a (List.mem_cons_self a u) ha
      rw [show collapseWS false (a :: u) = ' ' :: collapseWS true u by
        simp [collapseWS, ha]]
      rw [ha']
      congr 1
      cases u with
      | nil => rfl
      | cons d u2 =>
        have hd : isPySpace d = false := by
          have := (List.chain'_cons'.mp hch).1 d rfl
          rcases this with h1 | h2
          · rw [ha'] at h1; simp [isPySpace] at h1
          · exact h2
        rw [show collapseWS true (d :: u2) = d :: collapseWS false u2 by
          simp [collapseWS, hd]]
        have htail := ih (fun c hc h => hsp c (List.mem_cons_of_mem a hc) h)
          (List.Chain'.tail hch)
        rw [show collapseWS false (d :: u2) = d :: collapseWS false u2 by
          simp [collapseWS, hd]] at htail
        exact htail
    · rw [show collapseWS false (a :: u) = a :: collapseWS false u by
        simp [collapseWS, ha]]
      congr 1
      exact ih (fun c hc h => hsp c (List.mem_cons_of_mem a hc) h) (List.Chain'.tail hch)

theorem normalize_whitespace_eq (s : PyStr) :
    normalize_whitespace s = pyStrip (collapseWS false s) := by
  unfold normalize_whitespace
  cases s with
  | nil => rfl
  | cons a s => rfl

theorem normalize_whitespace_idem (s : PyStr) :
    normalize_whitespace (normalize_whitespace s) = normalize_whitespace s := by
  rw [normalize_whitespace_eq s, normalize_whitespace_eq]
  have hfix : collapseWS false (pyStrip (collapseWS false s)) = pyStrip (collapseWS false s) :=
    collapseWS_fix
      (fun c hc h => collapseWS_mem_space (mem_pyStrip hc) h)
      (chain'_pyStrip (collapseWS_chain s false))
  rw [hfix]
  exact pyStrip_idem _


/-
The table layer: statistics, validation and markdown formatting.
-/

/-- Python truthiness of a cell: `None` and the empty string are falsy. -/
def cellTruthy (cell : Cell) : Bool :=
  match cell with
  | none => false
  | some s => !s.isEmpty

/-- The string carried by a cell; only ever read behind a truthiness or
`is None` guard, exactly as the source short-circuits `str(cell)`. -/
def cellVal (cell : Cell) : PyStr := cell.getD []

/-- The source's per-cell test `cell and str(cell).strip()`: the cell is
truthy and its stripped text is non-empty. -/
def cellNonEmpty (cell : Cell) : Bool :=
  cellTruthy cell && !(pyStrip (cellVal cell)).isEmpty

/-- `len(str(cell).strip())` for a counted cell. -/
def cellStripLen (cell : Cell) : Nat := (pyStrip (cellVal cell)).length

/-- `row_has_content` for one row. -/
def rowHasContent (row : Row) : Bool := row.any cellNonEmpty

/-- `row_non_empty` for one row. -/
def rowNonEmptyCount (row : Row) : Nat := (row.filter cellNonEmpty).length

/-- The `TableStatistics` dataclass. -/
structure TableStatistics where
  non_empty_cells : Nat
  total_cells : Nat
  total_text_length : Nat
  non_empty_rows : Nat
  cells_per_row : List Nat
deriving Repr, DecidableEq

/-- `PDFExtractor._calculate_table_statistics`: the source's forward loop
over rows (skipping falsy rows), written as structural recursion that
prepends each surviving row's contribution — the accumulated counts add up
identically and `cells_per_row` keeps the rows' order. -/
def calculate_table_statistics : Table → TableStatistics
  | [] => ⟨0, 0, 0, 0, []⟩
  | row :: rest =>
    let st := calculate_table_statistics rest
    if row.isEmpty then st
    else
      let ne := rowNonEmptyCount row
      let tl := ((row.filter cellNonEmpty).map cellStripLen).sum
      if rowHasContent row then
        ⟨ne + st.non_empty_cells, row.length + st.total_cells,
         tl + st.total_text_length, 1 + st.non_empty_rows, ne :: st.cells_per_row⟩
      else
        ⟨ne + st.non_empty_cells, row.length + st.total_cells,
         tl + st.total_text_length, st.non_empty_rows, st.cells_per_row⟩

/-- `TableStatistics.content_density`. -/
def content_density (st : TableStatistics) : ℚ :=
  if st.total_cells > 0 then (st.non_empty_cells : ℚ) / (st.total_cells : ℚ) else 0

/-- `TableStatistics.avg_cell_length`. -/
def avg_cell_length (st : TableStatistics) : ℚ :=
  if st.non_empty_cells > 0 then (st.total_text_length : ℚ) / (st.non_empty_cells : ℚ)
  else 0

/-- `TableStatistics.avg_row_fill_rate`. -/
def avg_row_fill_rate (st : TableStatistics) (num_columns : Nat) : ℚ :=
  if st.cells_per_row.isEmpty || num_columns = 0 then 0
  else ((st.cells_per_row.sum : ℚ) / (st.cells_per_row.length : ℚ)) / (num_columns : ℚ)

/-- The module-level validation thresholds. -/
def MIN_TABLE_ROWS : Nat := 4

/-- `MIN_CONTENT_DENSITY = 0.4`. -/
def MIN_CONTENT_DENSITY : ℚ := 2 / 5

/-- `MIN_AVG_CELL_LENGTH = 15`. -/
def MIN_AVG_CELL_LENGTH : ℚ := 15

/-- `MIN_ROW_FILL_RATE = 0.4`. -/
def MIN_ROW_FILL_RATE : ℚ := 2 / 5

/-- The stripped values of the truthy cells of a row, in order — the
generator `str(cell).strip() for cell in table[0] if cell`. -/
def firstRowVals (row : Row) : List PyStr :=
  (row.filter cellTruthy).map (fun c => pyStrip (cellVal c))

/-- `PDFExtractor._is_valid_table`, with `len(set(xs))` rendered as
`xs.dedup.length`. -/
def is_valid_table : Table → Bool
  | [] => false
  | row0 :: rest =>
    if (row0 :: rest).length < 2 then false
    else if !row0.isEmpty && row0.length = 1 then false
    else if !row0.isEmpty && (firstRowVals row0).dedup.length = 1 then false
    else
      let stats := calculate_table_statistics (row0 :: rest)
      if content_density stats < MIN_CONTENT_DENSITY then false
      else if stats.non_empty_rows < MIN_TABLE_ROWS then false
      else if avg_cell_length stats < MIN_AVG_CELL_LENGTH then false
      else
        let num_columns := if row0.isEmpty then 0 else row0.length
        if avg_row_fill_rate stats num_columns < MIN_ROW_FILL_RATE then false
        else true

/-- `PDFExtractor._clean_cell_text`: `None` maps to the empty string,
otherwise newlines become spaces and the standard cleaning pipeline runs. -/
def clean_cell_text (cell : Cell) : PyStr :=
  match cell with
  | none => []
  | some s => clean_text (s.map (fun c => if c = '\n' then ' ' else c))

/-- The cleaned table of `_format_table_as_markdown`: clean every cell of
every truthy row, keep the rows with at least one non-empty cleaned cell. -/
def cleanedTable : Table → List (List PyStr)
  | [] => []
  | row :: rest =>
    if row.isEmpty then cleanedTable rest
    else
      let cleanedRow := row.map clean_cell_text
      if cleanedRow.any (fun c => !c.isEmpty) then cleanedRow :: cleanedTable rest
      else cleanedTable rest

/-- `f"| {' | '.join(cells)} |"` — one rendered table line. -/
def renderLine (cells : List PyStr) : PyStr :=
  '|' :: ' ' :: (List.intercalate [' ', '|', ' '] cells ++ [' ', '|'])

/-- The separator cells `["---"] * n`. -/
def sepCells (n : Nat) : List PyStr := List.replicate n ['-', '-', '-']

/-- `PDFExtractor._format_table_as_markdown`. -/
def format_table_as_markdown (table : Table) : PyStr :=
  if table.isEmpty then []
  else
    match cleanedTable table with
    | [] => []
    | row0 :: rest =>
      let headerLines :=
        if row0.isEmpty then []
        else [renderLine row0, renderLine (sepCells row0.length)]
      let dataLines := (rest.filter (fun r => !r.isEmpty)).map renderLine
      List.intercalate ['\n'] (headerLines ++ dataLines)

example :
    format_table_as_markdown
      [[some ("ab".toList), some ("cd".toList)],
       [some ("ef".toList), some ("gh".toList)]] =
    ("| ab | cd |\n| --- | --- |\n| ef | gh |".toList) := by decide

example :
    calculate_table_statistics [[some ("ab".toList), none], [some (" ".toList)]] =
    ⟨1, 3, 2, 1, [1]⟩ := by decide

/-
Formatter structure lemmas.
-/

theorem intercalate_pair {α : Type} (s a b : List α) (l : List (List α)) :
    List.intercalate s (a :: b :: l) = a ++ s ++ List.intercalate s (b :: l) := by
  simp [List.intercalate, List.intersperse_cons_cons, List.flatten]

theorem intercalate_one {α : Type} (s a : List α) : List.intercalate s [a] = a := by
  simp [List.intercalate]

theorem cleanedTable_ne_nil :
    ∀ {t : Table} {r : List PyStr}, r ∈ cleanedTable t → r ≠ [] := by
  intro t
  induction t with
  | nil => intro r h; simp [cleanedTable] at h
  | cons row rest ih =>
    intro r h
    by_cases he : row.isEmpty
    · rw [show cleanedTable (row :: rest) = cleanedTable rest by
        simp [cleanedTable, he]] at h
      exact ih h
    · by_cases ha : (row.map clean_cell_text).any (fun c => !c.isEmpty)
      · rw [show cleanedTable (row :: rest) =
            row.map clean_cell_text :: cleanedTable rest by
          simp [cleanedTable, he, ha]] at h
        rcases List.mem_cons.mp h with h1 | h2
        · subst h1
          intro hmap
          rw [List.map_eq_nil_iff] at hmap
          subst hmap
          simp at he
        · exact ih h2
      · rw [show cleanedTable (row :: rest) = cleanedTable rest by
          simp [cleanedTable, he, ha]] at h
        exact ih h

theorem cleanedTable_eq_filter (t : Table) :
    cleanedTable t =
      ((t.filter (fun r => !r.isEmpty)).map (fun r => r.map clean_cell_text)).filter
        (fun cr => cr.any (fun c => !c.isEmpty)) := by
  induction t with
  | nil => rfl
  | cons row rest ih =>
    by_cases he : row.isEmpty
    · simp [cleanedTable, he, ih, List.filter_cons]
    · by_cases ha : (row.map clean_cell_text).any (fun c => !c.isEmpty)
      · simp [cleanedTable, he, ha, ih, List.filter_cons]
      · simp [cleanedTable, he, ha, ih, List.filter_cons]

theorem format_eq_nil {t : Table} (h : cleanedTable t = []) :
    format_table_as_markdown t = [] := by
  cases t with
  | nil => rfl
  | cons row rest =>
    unfold format_table_as_markdown
    rw [h]
    simp

theorem format_eq_cons {t : Table} {r0 : List PyStr} {rs : List (List PyStr)}
    (h : cleanedTable t = r0 :: rs) :
    format_table_as_markdown t =
      List.intercalate ['\n']
        (renderLine r0 :: renderLine (sepCells r0.length) :: rs.map renderLine) := by
  have h0 : r0 ≠ [] := cleanedTable_ne_nil (t := t) (by rw [h]; exact List.mem_cons_self r0 rs)
  have hrs : rs.filter (fun r => !r.isEmpty) = rs :=
    List.filter_eq_self.mpr (fun r hr => by
      have hne := cleanedTable_ne_nil (t := t) (by rw [h]; exact List.mem_cons_of_mem _ hr)
      simpa using hne)
  cases t with
  | nil => simp [cleanedTable] at h
  | cons row rest =>
    unfold format_table_as_markdown
    rw [h]
    have h0e : r0.isEmpty = false := by simpa using h0
    simp [h0e, hrs]

/-
Statistics invariants.
-/

theorem stats_non_empty_cells_le (table : Table) :
    (calculate_table_statistics table).non_empty_cells ≤
      (calculate_table_statistics table).total_cells := by
  induction table with
  | nil => simp [calculate_table_statistics]
  | cons row rest ih =>
    by_cases he : row.isEmpty
    · simpa [calculate_table_statistics, he] using ih
    · have hrow : rowNonEmptyCount row ≤ row.length := List.length_filter_le _ _
      by_cases hc : rowHasContent row
      · simp only [calculate_table_statistics, he, hc]
        simp only [Bool.false_eq_true, if_false, if_true]
        omega
      · simp only [calculate_table_statistics, he, hc]
        simp only [Bool.false_eq_true, if_false, if_true]
        omega

theorem stats_non_empty_rows_le (table : Table) :
    (calculate_table_statistics table).non_empty_rows ≤ table.length := by
  induction table with
  | nil => simp [calculate_table_statistics]
  | cons row rest ih =>
    by_cases he : row.isEmpty
    · simp only [calculate_table_statistics, he, if_true, List.length_cons]
      omega
    · by_cases hc : rowHasContent row
      · simp only [calculate_table_statistics, he, hc]
        simp only [Bool.false_eq_true, if_false, if_true, List.length_cons]
        omega
      · simp only [calculate_table_statistics, he, hc]
        simp only [Bool.false_eq_true, if_false, if_true, List.length_cons]
        omega

theorem stats_cells_per_row_eq (table : Table) :
    (calculate_table_statistics table).cells_per_row =
      (table.filter rowHasContent).map rowNonEmptyCount := by
  induction table with
  | nil => rfl
  | cons row rest ih =>
    by_cases he : row.isEmpty
    · have hrow : row = [] := List.isEmpty_iff.mp he
      subst hrow
      have hc : rowHasContent ([] : Row) = false := rfl
      simp [calculate_table_statistics, List.filter_cons, hc, ih]
    · by_cases hc : rowHasContent row
      · simp [calculate_table_statistics, he, hc, List.filter_cons, ih]
      · simp [calculate_table_statistics, he, hc, List.filter_cons, ih]

theorem stats_cells_per_row_length (table : Table) :
    (calculate_table_statistics table).cells_per_row.length =
      (calculate_table_statistics table).non_empty_rows := by
  induction table with
  | nil => rfl
  | cons row rest ih =>
    by_cases he : row.isEmpty
    · simpa [calculate_table_statistics, he] using ih
    · by_cases hc : rowHasContent row
      · simp [calculate_table_statistics, he, hc, ih]
        omega
      · simp [calculate_table_statistics, he, hc, ih]

/-
Totality: checked variants that return `none` exactly where the Python
code could raise — `ZeroDivisionError` on an unguarded division,
`IndexError` on an unguarded subscript.  Every other operation of the core
is built from total string and list primitives.  The theorems below show
each checked variant always returns `some`, i.e. every guard in the source
covers its partial operation.
-/

/-- Division that fails on a zero divisor, as Python's `/` does. -/
def pyDiv (a b : ℚ) : Option ℚ := if b = 0 then none else some (a / b)

/-- `content_density` with its division checked. -/
def content_densityChecked (st : TableStatistics) : Option ℚ :=
  if st.total_cells > 0 then pyDiv (st.non_empty_cells : ℚ) (st.total_cells : ℚ)
  else some 0

/-- `avg_cell_length` with its division checked. -/
def avg_cell_lengthChecked (st : TableStatistics) : Option ℚ :=
  if st.non_empty_cells > 0 then pyDiv (st.total_text_length : ℚ) (st.non_empty_cells : ℚ)
  else some 0

/-- `avg_row_fill_rate` with both divisions checked. -/
def avg_row_fill_rateChecked (st : TableStatistics) (num_columns : Nat) : Option ℚ :=
  if st.cells_per_row.isEmpty || num_columns = 0 then some 0
  else
    match pyDiv (st.cells_per_row.sum : ℚ) (st.cells_per_row.length : ℚ) with
    | none => none
    | some avg_cells => pyDiv avg_cells (num_columns : ℚ)

/-- `_is_valid_table` with its subscript `table[0]` and the divisions of
the derived statistics checked. -/
def is_valid_tableChecked (table : Table) : Option Bool :=
  if table.isEmpty || table.length < 2 then some false
  else
    match table[0]? with
    | none => none
    | some row0 =>
      if !row0.isEmpty && row0.length = 1 then some false
      else if !row0.isEmpty && (firstRowVals row0).dedup.length = 1 then some false
      else
        let stats := calculate_table_statistics table
        match content_densityChecked stats with
        | none => none
        | some cd =>
          if cd < MIN_CONTENT_DENSITY then some false
          else if stats.non_empty_rows < MIN_TABLE_ROWS then some false
          else
            match avg_cell_lengthChecked stats with
            | none => none
            | some al =>
              if al < MIN_AVG_CELL_LENGTH then some false
              else
                match avg_row_fill_rateChecked stats
                    (if row0.isEmpty then 0 else row0.length) with
                | none => none
                | some fr => if fr < MIN_ROW_FILL_RATE then some false else some true

/-- `_format_table_as_markdown` with its subscript `cleaned_table[0]`
checked. -/
def format_table_as_markdownChecked (table : Table) : Option PyStr :=
  if table.isEmpty then some []
  else
    let ct := cleanedTable table
    if ct.isEmpty then some []
    else
      match ct[0]? with
      | none => none
      | some row0 =>
        let headerLines :=
          if row0.isEmpty then []
          else [renderLine row0, renderLine (sepCells row0.length)]
        let dataLines := ((ct.drop 1).filter (fun r => !r.isEmpty)).map renderLine
        some (List.intercalate ['\n'] (headerLines ++ dataLines))

theorem content_densityChecked_eq (st : TableStatistics) :
    content_densityChecked st = some (content_density st) := by
  unfold content_densityChecked content_density pyDiv
  by_cases h : st.total_cells > 0
  · have : (st.total_cells : ℚ) ≠ 0 := by
      exact_mod_cast Nat.pos_iff_ne_zero.mp h
    simp [h, this]
  · simp [h]

theorem avg_cell_lengthChecked_eq (st : TableStatistics) :
    avg_cell_lengthChecked st = some (avg_cell_length st) := by
  unfold avg_cell_lengthChecked avg_cell_length pyDiv
  by_cases h : st.non_empty_cells > 0
  · have : (st.non_empty_cells : ℚ) ≠ 0 := by
      exact_mod_cast Nat.pos_iff_ne_zero.mp h
    simp [h, this]
  · simp [h]

theorem avg_row_fill_rateChecked_eq (st : TableStatistics) (num_columns : Nat) :
    avg_row_fill_rateChecked st num_columns =
      some (avg_row_fill_rate st num_columns) := by
  unfold avg_row_fill_rateChecked avg_row_fill_rate pyDiv
  by_cases h : st.cells_per_row.isEmpty || num_columns = 0
  · simp [h]
  · have hcpr : ¬st.cells_per_row.isEmpty := by
      intro hc
      simp [hc] at h
    have hn : num_columns ≠ 0 := by
      intro hc
      simp [hc] at h
    have hlen : (st.cells_per_row.length : ℚ) ≠ 0 := by
      have : st.cells_per_row ≠ [] := by simpa using hcpr
      have : 0 < st.cells_per_row.length := List.length_pos.mpr this
      exact_mod_cast Nat.pos_iff_ne_zero.mp this
    have hnq : (num_columns : ℚ) ≠ 0 := by exact_mod_cast hn
    simp [h, hlen, hnq]

theorem is_valid_tableChecked_eq (table : Table) :
    is_valid_tableChecked table = some (is_valid_table table) := by
  cases table with
  | nil => rfl
  | cons row0 rest =>
    unfold is_valid_tableChecked is_valid_table
    simp only [content_densityChecked_eq, avg_cell_lengthChecked_eq,
      avg_row_fill_rateChecked_eq, List.isEmpty_cons, Bool.false_or,
      List.getElem?_cons_zero]
    split_ifs <;> simp_all <;> omega

theorem format_table_as_markdownChecked_eq (table : Table) :
    format_table_as_markdownChecked table = some (format_table_as_markdown table) := by
  cases table with
  | nil => rfl
  | cons row rest =>
    unfold format_table_as_markdownChecked format_table_as_markdown
    cases hct : cleanedTable (row :: rest) with
    | nil => simp [hct]
    | cons r0 rs => simp [hct]

/-
Claim theorems.
-/

theorem remove_cid_codes_eq (s : PyStr) :
    remove_cid_codes s = normalize_whitespace (subCid s) := by
  cases s with
  | nil => rfl
  | cons a s => rfl

theorem remove_page_headers_eq (s : PyStr) :
    remove_page_headers s = normalize_whitespace (subRoman (subPart s)) := by
  cases s with
  | nil => rfl
  | cons a s => rfl

theorem clean_text_eq (s : PyStr) :
    clean_text s =
      normalize_whitespace (subRoman (subPart (normalize_whitespace (subCid s)))) := by
  unfold clean_text
  rw [remove_cid_codes_eq, remove_page_headers_eq]

theorem normalize_clean_text (s : PyStr) :
    normalize_whitespace (clean_text s) = clean_text s := by
  rw [clean_text_eq s]
  exact normalize_whitespace_idem _

/-- C1 (counterexample): `clean` is not idempotent.  Deleting an inner
`(cid:5)` from `(ci(cid:5)d:3)` splices together a fresh `(cid:3)`
artifact, which only a second pass deletes, so `clean(clean(t)) ≠
clean(t)` for this `t`. -/
theorem c1_clean_not_idempotent :
    clean_text (clean_text ("(ci(cid:5)d:3)".toList)) ≠
      clean_text ("(ci(cid:5)d:3)".toList) := by decide

/-- C1 (amended): the cleaning pipeline is idempotent on every text whose
cleaned form is free of residual artifacts, i.e. is a fixed point of each
of the three removal substitutions (CID placeholders, doubled-PART tokens,
roman-numeral triples).  The whitespace-collapse-and-strip pass is
idempotent unconditionally, so a second `clean` changes nothing. -/
theorem c1_clean_idempotent_unless_respliced (t : PyStr)
    (hcid : subCid (clean_text t) = clean_text t)
    (hpart : subPart (clean_text t) = clean_text t)
    (hroman : subRoman (clean_text t) = clean_text t) :
    clean_text (clean_text t) = clean_text t := by
  rw [clean_text_eq (clean_text t), hcid, normalize_clean_text, hpart, hroman,
    normalize_clean_text]

/-- C1 (witness): a concrete artifact-free text satisfying the amended
theorem's hypotheses. -/
theorem c1_clean_idempotent_witness :
    clean_text (clean_text ("hello  world".toList)) = clean_text ("hello  world".toList) :=
  c1_clean_idempotent_unless_respliced ("hello  world".toList)
    (by decide) (by decide) (by decide)

/-- C2 (counterexample): for a 50-page document and requested range
(66, 100) the resolver returns `(65, 50)`, not the `(50, 50)` the claim
states — the start index is never clamped to the page count. -/
theorem c2_resolver_values_counterexample :
    get_page_indices 50 (some (66, 100)) ≠ (50, 50) := by decide

/-- C2 (amended): the resolver's four values are `(0, 50)`, `(65, 50)`
(an empty half-open range, since its end does not exceed its start),
`(65, 100)` and `(0, 50)`. -/
theorem c2_resolver_values :
    get_page_indices 50 none = (0, 50) ∧
    get_page_indices 50 (some (66, 100)) = (65, 50) ∧
    (get_page_indices 50 (some (66, 100))).2 ≤ (get_page_indices 50 (some (66, 100))).1 ∧
    get_page_indices 200 (some (66, 100)) = (65, 100) ∧
    get_page_indices 50 (some (1, 99999)) = (0, 50) := by decide

/-- C5: for every page count and every request, an absent range resolves
to `(0, total_pages)` and a present 1-indexed inclusive pair `(start, end)`
resolves to `(max 0 (start - 1), min total_pages end)`; the resolver is a
total function, so out-of-bounds input is clamped, never an error. -/
theorem c5_resolver_rule (total_pages : Int) (s e : Int) :
    get_page_indices total_pages none = (0, total_pages) ∧
    get_page_indices total_pages (some (s, e)) =
      (max 0 (s - 1), min total_pages e) :=
  ⟨rfl, rfl⟩

/-- C7: none of the five core operations can raise on its documented
domain.  Text cleaning and range resolution are built from total
primitives; each checked variant — which returns `none` exactly where the
Python source could raise (`ZeroDivisionError`, `IndexError`) — always
returns `some`, and the degenerate inputs (empty text, `None` cells, empty
grids, out-of-range requests) map to the defined degenerate outputs. -/
theorem c7_operations_total :
    (∀ st, content_densityChecked st = some (content_density st)) ∧
    (∀ st, avg_cell_lengthChecked st = some (avg_cell_length st)) ∧
    (∀ st n, avg_row_fill_rateChecked st n = some (avg_row_fill_rate st n)) ∧
    (∀ t, is_valid_tableChecked t = some (is_valid_table t)) ∧
    (∀ t, format_table_as_markdownChecked t = some (format_table_as_markdown t)) ∧
    clean_text [] = [] ∧
    clean_cell_text none = [] ∧
    calculate_table_statistics [] = ⟨0, 0, 0, 0, []⟩ ∧
    calculate_table_statistics [[none, some []]] = ⟨0, 2, 0, 0, []⟩ ∧
    is_valid_table [] = false ∧
    format_table_as_markdown [] = [] ∧
    format_table_as_markdown [[none, some []]] = [] ∧
    get_page_indices 50 (some (99999, 100000)) = (99998, 50) :=
  ⟨content_densityChecked_eq, avg_cell_lengthChecked_eq, avg_row_fill_rateChecked_eq,
   is_valid_tableChecked_eq, format_table_as_markdownChecked_eq,
   by decide, rfl, rfl, by decide, rfl, rfl, by decide, by decide⟩

/-- C8: for every grid the computed statistics satisfy
`non_empty_cells ≤ total_cells`, `non_empty_rows ≤` the number of rows,
and `cells_per_row` lists, in grid order, exactly the filled-cell count of
each row that has at least one non-empty cell (so it has exactly
`non_empty_rows` entries). -/
theorem c8_statistics_invariants (table : Table) :
    (calculate_table_statistics table).non_empty_cells ≤
      (calculate_table_statistics table).total_cells ∧
    (calculate_table_statistics table).non_empty_rows ≤ table.length ∧
    (calculate_table_statistics table).cells_per_row.length =
      (calculate_table_statistics table).non_empty_rows ∧
    (calculate_table_statistics table).cells_per_row =
      (table.filter rowHasContent).map rowNonEmptyCount :=
  ⟨stats_non_empty_cells_le table, stats_non_empty_rows_le table,
   stats_cells_per_row_length table, stats_cells_per_row_eq table⟩

/-- C9: the derived accessors are the guarded ratios the claim states:
`content_density = non_empty_cells / total_cells` (0 on an empty count),
`avg_cell_length = total_text_length / non_empty_cells` (0 likewise), and
`avg_row_fill_rate n = (mean of cells_per_row) / n` (0 when `cells_per_row`
is empty or `n = 0`). -/
theorem c9_derived_accessors (st : TableStatistics) :
    (0 < st.total_cells →
      content_density st = (st.non_empty_cells : ℚ) / (st.total_cells : ℚ)) ∧
    (st.total_cells = 0 → content_density st = 0) ∧
    (0 < st.non_empty_cells →
      avg_cell_length st = (st.total_text_length : ℚ) / (st.non_empty_cells : ℚ)) ∧
    (st.non_empty_cells = 0 → avg_cell_length st = 0) ∧
    (∀ n : Nat, st.cells_per_row ≠ [] → n ≠ 0 →
      avg_row_fill_rate st n =
        ((st.cells_per_row.sum : ℚ) / (st.cells_per_row.length : ℚ)) / (n : ℚ)) ∧
    (∀ n : Nat, st.cells_per_row = [] ∨ n = 0 → avg_row_fill_rate st n = 0) := by
  refine ⟨?_, ?_, ?_, ?_, ?_, ?_⟩
  · intro h
    simp [content_density, h]
  · intro h
    simp [content_density, h]
  · intro h
    simp [avg_cell_length, h]
  · intro h
    simp [avg_cell_length, h]
  · intro n h1 h2
    have h1e : st.cells_per_row.isEmpty = false := by simpa using h1
    simp [avg_row_fill_rate, h1e, h2]
  · intro n h
    rcases h with h | h
    · simp [avg_row_fill_rate, h]
    · simp [avg_row_fill_rate, h]

/-- C9 (witness): the accessors evaluated on two concrete statistics
values, one with zero counts. -/
theorem c9_derived_accessors_witness :
    content_density ⟨3, 4, 30, 2, [1, 2]⟩ = 3 / 4 ∧
    content_density ⟨0, 0, 0, 0, []⟩ = 0 ∧
    avg_cell_length ⟨3, 4, 30, 2, [1, 2]⟩ = 30 / 3 ∧
    avg_cell_length ⟨0, 0, 0, 0, []⟩ = 0 ∧
    avg_row_fill_rate ⟨3, 4, 30, 2, [1, 2]⟩ 2 = ((3 : ℚ) / 2) / 2 ∧
    avg_row_fill_rate ⟨3, 4, 30, 2, [1, 2]⟩ 0 = 0 := by
  refine ⟨?_, ?_, ?_, ?_, ?_, ?_⟩
  · have h := (c9_derived_accessors ⟨3, 4, 30, 2, [1, 2]⟩).1 (by norm_num)
    simpa using h
  · exact (c9_derived_accessors ⟨0, 0, 0, 0, []⟩).2.1 rfl
  · have h := (c9_derived_accessors ⟨3, 4, 30, 2, [1, 2]⟩).2.2.1 (by norm_num)
    simpa using h
  · exact (c9_derived_accessors ⟨0, 0, 0, 0, []⟩).2.2.2.1 rfl
  · have h := (c9_derived_accessors ⟨3, 4, 30, 2, [1, 2]⟩).2.2.2.2.1 2
      (by simp) (by norm_num)
    simpa using h
  · exact (c9_derived_accessors ⟨3, 4, 30, 2, [1, 2]⟩).2.2.2.2.2 0 (Or.inr rfl)

/-- A 3-row, 2-column grid, all cells non-empty after cleaning. -/
def gThreeByTwo : Table :=
  [[some ("ab".toList), some ("cd".toList)],
   [some ("ef".toList), some ("gh".toList)],
   [some ("ij".toList), some ("kl".toList)]]

/-- A ragged grid: a 3-cell first row, then a 1-cell row. -/
def gRagged : Table :=
  [[some ("aa".toList), some ("bb".toList), some ("cc".toList)],
   [some ("d".toList)]]

/-- C6: the formatter cleans every cell (`clean_cell_text`, i.e. newline
to space then the standard pipeline), drops rows whose cleaned cells are
all empty, returns the empty string when no rows survive, and otherwise
renders the first surviving row as a header, a separator with the header's
column count, and each remaining row as a data row — every line
pipe-delimited with leading and trailing delimiters (`renderLine`); a
3-row, 2-column grid with all cells non-empty after cleaning renders as
exactly 4 lines (3 newlines). -/
theorem c6_formatter_rendering (t : Table) :
    (cleanedTable t =
      ((t.filter (fun r => !r.isEmpty)).map (fun r => r.map clean_cell_text)).filter
        (fun cr => cr.any (fun c => !c.isEmpty))) ∧
    (cleanedTable t = [] → format_table_as_markdown t = []) ∧
    (∀ r0 rs, cleanedTable t = r0 :: rs →
      format_table_as_markdown t =
        List.intercalate ['\n']
          (renderLine r0 :: renderLine (sepCells r0.length) :: rs.map renderLine)) ∧
    (format_table_as_markdown gThreeByTwo =
      ("| ab | cd |\n| --- | --- |\n| ef | gh |\n| ij | kl |".toList)) ∧
    (format_table_as_markdown gThreeByTwo).count '\n' = 3 := by
  refine ⟨cleanedTable_eq_filter t, fun h => format_eq_nil h,
    fun r0 rs h => format_eq_cons h, by decide, by decide⟩

/-- C6 (witness): the rendering equation applied to the concrete 3×2 grid. -/
theorem c6_formatter_rendering_witness :
    format_table_as_markdown gThreeByTwo =
      List.intercalate ['\n']
        (renderLine ("ab".toList :: ["cd".toList]) ::
         renderLine (sepCells 2) ::
         [["ef".toList, "gh".toList], ["ij".toList, "kl".toList]].map renderLine) :=
  (c6_formatter_rendering gThreeByTwo).2.2.1
    ["ab".toList, "cd".toList]
    [["ef".toList, "gh".toList], ["ij".toList, "kl".toList]]
    (by decide)

theorem renderLine_pipe_count (cells : List PyStr) (hne : cells ≠ [])
    (hfree : ∀ c ∈ cells, '|' ∉ c) :
    (renderLine cells).count '|' = cells.length + 1 := by
  have key : ∀ (l : List PyStr), l ≠ [] → (∀ c ∈ l, '|' ∉ c) →
      (List.intercalate [' ', '|', ' '] l).count '|' = l.length - 1 := by
    intro l
    induction l with
    | nil => intro h; exact absurd rfl h
    | cons a l ih =>
      intro _ hf
      cases l with
      | nil =>
        rw [intercalate_one]
        simp [List.count_eq_zero.mpr (hf a (List.mem_cons_self a []))]
      | cons b l2 =>
        rw [intercalate_pair]
        have ha : (a : PyStr).count '|' = 0 :=
          List.count_eq_zero.mpr (hf a (List.mem_cons_self a (b :: l2)))
        have htail := ih (by simp) (fun c hc => hf c (List.mem_cons_of_mem a hc))
        simp [List.count_append, ha, htail, List.count_cons]
  unfold renderLine
  have h1 := key cells hne hfree
  simp [List.count_cons, List.count_append, h1]
  have : 1 ≤ cells.length := List.length_pos.mpr hne
  omega

/-- C10: the formatter never pads or truncates a data row: whenever the
cleaned table is `r0 :: rs`, the output is exactly the header line, a
separator forced to the header's column count, and one `renderLine r` per
remaining cleaned row `r` — a line whose pipe count is that row's own cell
count plus one, not the header's; the ragged grid `gRagged` therefore
renders a 1-cell data line under a 3-cell header. -/
theorem c10_no_row_padding (t : Table) :
    (∀ r0 rs, cleanedTable t = r0 :: rs →
      format_table_as_markdown t =
        List.intercalate ['\n']
          (renderLine r0 :: renderLine (sepCells r0.length) :: rs.map renderLine)) ∧
    (∀ cells : List PyStr, cells ≠ [] → (∀ c ∈ cells, '|' ∉ c) →
      (renderLine cells).count '|' = cells.length + 1) ∧
    (∀ n, (sepCells n).length = n) ∧
    (format_table_as_markdown gRagged =
      ("| aa | bb | cc |\n| --- | --- | --- |\n| d |".toList)) ∧
    (renderLine ["d".toList]).count '|' = 2 ∧
    (renderLine ["aa".toList, "bb".toList, "cc".toList]).count '|' = 4 :=
  ⟨fun r0 rs h => format_eq_cons h, renderLine_pipe_count,
   fun n => List.length_replicate n _, by decide, by decide, by decide⟩

/-- C10 (witness): the structural equation and the pipe-count law applied
to the ragged grid's rows. -/
theorem c10_no_row_padding_witness :
    format_table_as_markdown gRagged =
      List.intercalate ['\n']
        (renderLine ["aa".toList, "bb".toList, "cc".toList] ::
         renderLine (sepCells 3) :: [["d".toList]].map renderLine) ∧
    (renderLine ["d".toList]).count '|' = 1 + 1 :=
  ⟨(c10_no_row_padding gRagged).1 ["aa".toList, "bb".toList, "cc".toList]
    [["d".toList]] (by decide),
   (c10_no_row_padding gRagged).2.1 ["d".toList] (by decide) (by decide)⟩

/-- A cell whose string equals its own strip and is non-empty passes the
source's `cell and str(cell).strip()` test. -/
theorem cellNonEmpty_of (s : PyStr) (h : pyStrip s = s) (hne : s ≠ []) :
    cellNonEmpty (some s) = true := by
  have he : s.isEmpty = false := by simpa using hne
  simp [cellNonEmpty, cellTruthy, cellVal, h, he]

/-- Statistics of a grid whose first row is two non-empty cells. -/
theorem stats_cons_two (a b : PyStr) (rest : Table)
    (ha : cellNonEmpty (some a) = true) (hb : cellNonEmpty (some b) = true) :
    calculate_table_statistics ([some a, some b] :: rest) =
      ⟨2 + (calculate_table_statistics rest).non_empty_cells,
       2 + (calculate_table_statistics rest).total_cells,
       (pyStrip a).length +
         ((pyStrip b).length + (calculate_table_statistics rest).total_text_length),
       1 + (calculate_table_statistics rest).non_empty_rows,
       2 :: (calculate_table_statistics rest).cells_per_row⟩ := by
  have hc : rowHasContent [some a, some b] = true := by simp [rowHasContent, ha]
  have hf : ([some a, some b] : Row).filter cellNonEmpty = [some a, some b] := by
    simp [List.filter, ha, hb]
  simp [calculate_table_statistics, hc, hf, rowNonEmptyCount, cellStripLen, cellVal]
  omega

/-- A 5-row, 2-column grid of present cells. -/
def twoColGrid (a1 b1 a2 b2 a3 b3 a4 b4 a5 b5 : PyStr) : Table :=
  [[some a1, some b1], [some a2, some b2], [some a3, some b3],
   [some a4, some b4], [some a5, some b5]]

/-- Twenty copies of `a`. -/
def a20 : PyStr := "aaaaaaaaaaaaaaaaaaaa".toList

/-- Twenty copies of `b`. -/
def b20 : PyStr := "bbbbbbbbbbbbbbbbbbbb".toList

/-- Twenty copies of `c`. -/
def c20 : PyStr := "cccccccccccccccccccc".toList

/-- C3 (counterexample): a 2-column, 5-row grid in which every cell holds
the same 20-character string is rejected, because the first row's stripped
values collapse to one value and the repeated-label check fires before any
statistic is consulted. -/
theorem c3_uniform_grid_rejected :
    (twoColGrid a20 a20 a20 a20 a20 a20 a20 a20 a20 a20).length = 5 ∧
    (∀ row ∈ twoColGrid a20 a20 a20 a20 a20 a20 a20 a20 a20 a20,
      row.length = 2 ∧ ∀ c ∈ row, c ≠ none ∧ (cellVal c).length = 20) ∧
    is_valid_table (twoColGrid a20 a20 a20 a20 a20 a20 a20 a20 a20 a20) = false := by
  decide

/-- C3 (amended): every 2-column, 5-row grid whose cells hold 20-character
strings that carry no leading/trailing whitespace, with the first row's
two cells distinct, is accepted — with `content_density = 1`,
`avg_cell_length = 20`, `non_empty_rows = 5` and `avg_row_fill_rate = 1`. -/
theorem c3_twenty_char_grid_accepted (a1 b1 a2 b2 a3 b3 a4 b4 a5 b5 : PyStr)
    (hall : ∀ s ∈ [a1, b1, a2, b2, a3, b3, a4, b4, a5, b5],
      s.length = 20 ∧ pyStrip s = s)
    (hne : a1 ≠ b1) :
    is_valid_table (twoColGrid a1 b1 a2 b2 a3 b3 a4 b4 a5 b5) = true ∧
    content_density
      (calculate_table_statistics (twoColGrid a1 b1 a2 b2 a3 b3 a4 b4 a5 b5)) = 1 ∧
    avg_cell_length
      (calculate_table_statistics (twoColGrid a1 b1 a2 b2 a3 b3 a4 b4 a5 b5)) = 20 ∧
    (calculate_table_statistics (twoColGrid a1 b1 a2 b2 a3 b3 a4 b4 a5 b5)).non_empty_rows
      = 5 ∧
    avg_row_fill_rate
      (calculate_table_statistics (twoColGrid a1 b1 a2 b2 a3 b3 a4 b4 a5 b5)) 2 = 1 := by
  have hlen : ∀ s ∈ [a1, b1, a2, b2, a3, b3, a4, b4, a5, b5], s.length = 20 :=
    fun s hs => (hall s hs).1
  have hst : ∀ s ∈ [a1, b1, a2, b2, a3, b3, a4, b4, a5, b5], pyStrip s = s :=
    fun s hs => (hall s hs).2
  have hnn : ∀ s ∈ [a1, b1, a2, b2, a3, b3, a4, b4, a5, b5], s ≠ [] := by
    intro s hs h
    subst h
    simpa using hlen [] hs
  have hce : ∀ s ∈ [a1, b1, a2, b2, a3, b3, a4, b4, a5, b5],
      cellNonEmpty (some s) = true :=
    fun s hs => cellNonEmpty_of s (hst s hs) (hnn s hs)
  have e1 := stats_cons_two a5 b5 [] (hce a5 (by simp)) (hce b5 (by simp))
  have e2 := stats_cons_two a4 b4 [[some a5, some b5]]
    (hce a4 (by simp)) (hce b4 (by simp))
  have e3 := stats_cons_two a3 b3 [[some a4, some b4], [some a5, some b5]]
    (hce a3 (by simp)) (hce b3 (by simp))
  have e4 := stats_cons_two a2 b2
    [[some a3, some b3], [some a4, some b4], [some a5, some b5]]
    (hce a2 (by simp)) (hce b2 (by simp))
  have e5 := stats_cons_two a1 b1
    [[some a2, some b2], [some a3, some b3], [some a4, some b4], [some a5, some b5]]
    (hce a1 (by simp)) (hce b1 (by simp))
  have hstats : calculate_table_statistics (twoColGrid a1 b1 a2 b2 a3 b3 a4 b4 a5 b5) =
      ⟨10, 10, 200, 5, [2, 2, 2, 2, 2]⟩ := by
    unfold twoColGrid
    rw [e5, e4, e3, e2, e1]
    simp [calculate_table_statistics, hst a1 (by simp), hst b1 (by simp),
      hst a2 (by simp), hst b2 (by simp), hst a3 (by simp), hst b3 (by simp),
      hst a4 (by simp), hst b4 (by simp), hst a5 (by simp), hst b5 (by simp),
      hlen a1 (by simp), hlen b1 (by simp), hlen a2 (by simp), hlen b2 (by simp),
      hlen a3 (by simp), hlen b3 (by simp), hlen a4 (by simp), hlen b4 (by simp),
      hlen a5 (by simp), hlen b5 (by simp)]
  have htr1 : cellTruthy (some a1) = true := by
    have := hnn a1 (by simp)
    simp [cellTruthy]
    simpa using this
  have htr2 : cellTruthy (some b1) = true := by
    have := hnn b1 (by simp)
    simp [cellTruthy]
    simpa using this
  have hfr : (firstRowVals [some a1, some b1]).dedup.length = 2 := by
    have hv : firstRowVals [some a1, some b1] = [a1, b1] := by
      simp [firstRowVals, List.filter, htr1, htr2, cellVal,
        hst a1 (by simp), hst b1 (by simp)]
    rw [hv, List.dedup_cons_of_not_mem (by simpa using hne)]
    simp
  refine ⟨?_, ?_, ?_, ?_, ?_⟩
  · have hstats2 := hstats
    unfold twoColGrid at hstats2 ⊢
    unfold is_valid_table
    simp only [hstats2, hfr]
    norm_num [content_density, avg_cell_length, avg_row_fill_rate,
      MIN_TABLE_ROWS, MIN_CONTENT_DENSITY, MIN_AVG_CELL_LENGTH, MIN_ROW_FILL_RATE,
      List.sum_cons, List.sum_nil]
  · rw [hstats]
    norm_num [content_density]
  · rw [hstats]
    norm_num [avg_cell_length]
  · rw [hstats]
  · rw [hstats]
    norm_num [avg_row_fill_rate]

/-- C3 (witness): a concrete such grid, accepted with the stated metrics. -/
theorem c3_twenty_char_grid_witness :
    is_valid_table (twoColGrid a20 b20 a20 b20 a20 b20 a20 b20 a20 b20) = true ∧
    content_density
      (calculate_table_statistics (twoColGrid a20 b20 a20 b20 a20 b20 a20 b20 a20 b20))
      = 1 ∧
    avg_cell_length
      (calculate_table_statistics (twoColGrid a20 b20 a20 b20 a20 b20 a20 b20 a20 b20))
      = 20 ∧
    (calculate_table_statistics
      (twoColGrid a20 b20 a20 b20 a20 b20 a20 b20 a20 b20)).non_empty_rows = 5 ∧
    avg_row_fill_rate
      (calculate_table_statistics (twoColGrid a20 b20 a20 b20 a20 b20 a20 b20 a20 b20)) 2
      = 1 :=
  c3_twenty_char_grid_accepted a20 b20 a20 b20 a20 b20 a20 b20 a20 b20
    (by decide) (by decide)

/-- A grid whose first row pairs a 20-character value with a
whitespace-only cell, over four dense rows. -/
def gWhitespaceFirstRow : Table :=
  [[some a20, some (" ".toList)],
   [some b20, some c20], [some b20, some c20],
   [some b20, some c20], [some b20, some c20]]

/-- C4 (counterexample): the first row's distinct non-empty stripped cell
values collapse to the single value `a20`, yet the validator accepts the
grid.  The source filters the generator by raw truthiness, so the
whitespace-only cell contributes the empty string to the set, which then
has two elements and the repeated-label check does not fire. -/
theorem c4_whitespace_cell_defeats_check :
    ((firstRowVals (gWhitespaceFirstRow.headD [])).filter
        (fun s => !s.isEmpty)).dedup = [a20] ∧
    is_valid_table gWhitespaceFirstRow = true := by
  constructor
  · decide
  · have hst : calculate_table_statistics gWhitespaceFirstRow =
        ⟨9, 10, 180, 5, [1, 2, 2, 2, 2]⟩ := by decide
    have hfr : (firstRowVals [some a20, some (" ".toList)]).dedup.length = 2 := by
      decide
    simp only [gWhitespaceFirstRow] at hst hfr
    simp only [gWhitespaceFirstRow, is_valid_table, hst, hfr]
    norm_num [content_density, avg_cell_length, avg_row_fill_rate,
      MIN_TABLE_ROWS, MIN_CONTENT_DENSITY, MIN_AVG_CELL_LENGTH, MIN_ROW_FILL_RATE,
      List.sum_cons, List.sum_nil]

/-- C4 (amended): rejection is guaranteed when the stripped values of the
first row's *truthy* cells (the set the source actually builds, in which a
whitespace-only cell contributes the empty string) collapse to exactly one
value and the first row is non-empty; the rest of the grid is arbitrary. -/
theorem c4_single_distinct_first_row_rejected (row0 : Row) (rest : Table)
    (h0 : row0.isEmpty = false)
    (h1 : (firstRowVals row0).dedup.length = 1) :
    is_valid_table (row0 :: rest) = false := by
  unfold is_valid_table
  by_cases hlen : (row0 :: rest).length < 2
  · simp only [List.length_cons] at hlen
    simp [hlen]
  · by_cases hl1 : row0.length = 1
    · simp [hlen, h0, hl1]
    · simp [hlen, h0, hl1, h1]

/-- C4 (witness): a grid whose first row repeats one value is rejected. -/
theorem c4_single_distinct_first_row_witness :
    is_valid_table
      [[some ("x".toList), some ("x".toList)], [some ("y".toList)]] = false :=
  c4_single_distinct_first_row_rejected
    [some ("x".toList), some ("x".toList)] [[some ("y".toList)]]
    (by decide) (by decide)

end PdfExtractor
